import Mathlib

/-!
Verification of the echobox session engine against its natural-language
specification.  The Go sources are shallowly embedded: each Go method
becomes a pure Lean function over an explicit state record; wall-clock
instants are modelled as integer nanoseconds (Go's monotonic clock), and
byte slices as `List Nat`.
-/

namespace Echobox

/-! ## Session state (internal/session/state.go) -/

/-- `ConnectionState` from state.go: active, disconnected, expired. -/
inductive ConnectionState where
  | active
  | disconnected
  | expired
deriving DecidableEq, Repr

/-- `SessionState` from state.go.  Times are integer nanoseconds.  The
mutex is dropped (operations are modelled as atomic state transformers);
cursor position is not needed by any claim. -/
structure SessionState where
  reconnectToken : String
  tokenCreatedAt : Int
  reconnectWindow : Int
  state : ConnectionState
  lastConnectTime : Int
  lastDisconnectTime : Int
  connectionCount : Int
  disconnectCount : Int
  terminalBuffer : List Nat
  terminalCols : Nat
  terminalRows : Nat
deriving DecidableEq, Repr

/-- `NewSessionState`: fresh state is active with an empty buffer and one
connection counted.  The token is a parameter (the source draws a UUID). -/
def newSessionState (token : String) (now : Int) (reconnectWindow : Int) : SessionState :=
  { reconnectToken := token
    tokenCreatedAt := now
    reconnectWindow := reconnectWindow
    state := ConnectionState.active
    lastConnectTime := now
    lastDisconnectTime := 0
    connectionCount := 1
    disconnectCount := 0
    terminalBuffer := []
    terminalCols := 0
    terminalRows := 0 }

/-- `SessionState.Connect`: unconditionally sets state to active, stamps
the connect time and bumps the counter. -/
def SessionState.connect (s : SessionState) (now : Int) : SessionState :=
  { s with state := ConnectionState.active
           lastConnectTime := now
           connectionCount := s.connectionCount + 1 }

/-- `SessionState.Disconnect`: unconditionally sets state to disconnected,
stamps the disconnect time and bumps the counter. -/
def SessionState.disconnect (s : SessionState) (now : Int) : SessionState :=
  { s with state := ConnectionState.disconnected
           lastDisconnectTime := now
           disconnectCount := s.disconnectCount + 1 }

/-- `SessionState.MarkExpired`: unconditionally sets state to expired. -/
def SessionState.markExpired (s : SessionState) : SessionState :=
  { s with state := ConnectionState.expired }

/-- `SessionState.IsExpired`: true if the state is expired, or the state is
disconnected and more than the reconnect window has elapsed since the
last disconnect. -/
def SessionState.isExpired (s : SessionState) (now : Int) : Bool :=
  if s.state = ConnectionState.expired then
    true
  else if s.state = ConnectionState.disconnected then
    now - s.lastDisconnectTime > s.reconnectWindow
  else
    false

/-- `SessionState.CanReconnect`: token must match, the state must not be
expired, and the state must be disconnected. -/
def SessionState.canReconnect (s : SessionState) (token : String) (now : Int) : Bool :=
  if s.reconnectToken ≠ token then
    false
  else if s.isExpired now then
    false
  else
    s.state = ConnectionState.disconnected

/-- The 100 KiB rolling-buffer cap from `UpdateTerminalBuffer`
(`maxBufferSize := 100 * 1024`). -/
def maxBufferSize : Nat := 100 * 1024

/-- `SessionState.UpdateTerminalBuffer`: append, then trim the head so the
buffer keeps only the most recent `maxBufferSize` bytes
(`s.TerminalBuffer[len(s.TerminalBuffer)-maxBufferSize:]`). -/
def SessionState.updateTerminalBuffer (s : SessionState) (data : List Nat) : SessionState :=
  let grown := s.terminalBuffer ++ data
  if grown.length > maxBufferSize then
    { s with terminalBuffer := grown.drop (grown.length - maxBufferSize) }
  else
    { s with terminalBuffer := grown }

/-- `SessionState.UpdateTerminalSize`. -/
def SessionState.updateTerminalSize (s : SessionState) (cols rows : Nat) : SessionState :=
  { s with terminalCols := cols, terminalRows := rows }

end Echobox

namespace Echobox

/-! ## Rolling-buffer helpers -/

/-- The last `n` elements of a list (the Go slice `l[len(l)-n:]`). -/
def takeLast (n : Nat) (l : List α) : List α :=
  l.drop (l.length - n)

theorem takeLast_length_le (n : Nat) (l : List α) : (takeLast n l).length ≤ n := by
  simp only [takeLast, List.length_drop]
  omega

theorem takeLast_of_length_le (n : Nat) (l : List α) (h : l.length ≤ n) :
    takeLast n l = l := by
  simp only [takeLast]
  rw [Nat.sub_eq_zero_of_le h, List.drop_zero]

theorem takeLast_length (n : Nat) (l : List α) :
    (takeLast n l).length = min n l.length := by
  simp only [takeLast, List.length_drop]
  omega

theorem take_append_take (n : Nat) (u v : List α) :
    (u ++ v.take n).take n = (u ++ v).take n := by
  rw [List.take_append_eq_append_take, List.take_append_eq_append_take,
    List.take_take, Nat.min_eq_left (Nat.sub_le n u.length)]

theorem takeLast_eq_rtake (n : Nat) (l : List α) : takeLast n l = l.rtake n := rfl

theorem takeLast_append_takeLast (n : Nat) (xs ys : List α) :
    takeLast n (takeLast n xs ++ ys) = takeLast n (xs ++ ys) := by
  simp only [takeLast_eq_rtake, List.rtake_eq_reverse_take_reverse,
    List.reverse_append, List.reverse_reverse]
  rw [take_append_take]

/-- Running a sequence of `UpdateTerminalBuffer` calls. -/
def runBufferUpdates (s : SessionState) (updates : List (List Nat)) : SessionState :=
  updates.foldl SessionState.updateTerminalBuffer s

theorem updateTerminalBuffer_eq_takeLast (s : SessionState) (acc data : List Nat)
    (h : s.terminalBuffer = takeLast maxBufferSize acc) :
    (s.updateTerminalBuffer data).terminalBuffer = takeLast maxBufferSize (acc ++ data) := by
  unfold SessionState.updateTerminalBuffer
  by_cases hlen : (s.terminalBuffer ++ data).length > maxBufferSize
  · simp only [hlen, if_pos]
    show takeLast maxBufferSize (s.terminalBuffer ++ data) = _
    rw [h, takeLast_append_takeLast]
  · simp only [hlen, if_neg, not_false_iff]
    have : s.terminalBuffer ++ data = takeLast maxBufferSize (s.terminalBuffer ++ data) := by
      rw [takeLast_of_length_le]
      omega
    rw [this, h, takeLast_append_takeLast]

theorem runBufferUpdates_terminalBuffer (s : SessionState) (acc : List Nat)
    (updates : List (List Nat)) (h : s.terminalBuffer = takeLast maxBufferSize acc) :
    (runBufferUpdates s updates).terminalBuffer
      = takeLast maxBufferSize (acc ++ updates.flatten) := by
  induction updates generalizing s acc with
  | nil => simpa [runBufferUpdates] using h
  | cons d rest ih =>
      have step := updateTerminalBuffer_eq_takeLast s acc d h
      have := ih (s.updateTerminalBuffer d) (acc ++ d) step
      simpa [runBufferUpdates, List.foldl_cons, List.append_assoc] using this

/-! ## Operations on the connection state, and the reconnect endpoint -/

/-- One call to a `SessionState` lifecycle method. -/
inductive SessionOp where
  | connectOp (now : Int)
  | disconnectOp (now : Int)
  | markExpiredOp
deriving DecidableEq, Repr

/-- Dispatch of a lifecycle call. -/
def applySessionOp (s : SessionState) : SessionOp → SessionState
  | SessionOp.connectOp now => s.connect now
  | SessionOp.disconnectOp now => s.disconnect now
  | SessionOp.markExpiredOp => s.markExpired

/-- Outcome of `GET /reconnect` (recorder.go, `Server.handleReconnect`),
identified by HTTP status: 200 ok, 400, 401, 409, 410. -/
inductive ReconnectResp where
  | ok (cols rows : Nat) (buffer : List Nat)
  | badRequest
  | unauthorized
  | conflict
  | gone
deriving DecidableEq, Repr

/-- `Server.handleReconnect`: 400 on missing token; 200 with the terminal
snapshot when `CanReconnect` holds; otherwise the handler switches on
`GetState()`: expired → 410, active → 409, anything else → 401. -/
def handleReconnect (s : SessionState) (token : Option String) (now : Int) :
    ReconnectResp :=
  match token with
  | none => ReconnectResp.badRequest
  | some t =>
    if s.canReconnect t now then
      ReconnectResp.ok s.terminalCols s.terminalRows s.terminalBuffer
    else if s.state = ConnectionState.expired then
      ReconnectResp.gone
    else if s.state = ConnectionState.active then
      ReconnectResp.conflict
    else
      ReconnectResp.unauthorized

/-- A disconnected session whose reconnect window (300) has elapsed at
time 301 without `MarkExpired` having been called. -/
def reconnectCex : SessionState :=
  { reconnectToken := "tok"
    tokenCreatedAt := 0
    reconnectWindow := 300
    state := ConnectionState.disconnected
    lastConnectTime := 0
    lastDisconnectTime := 0
    connectionCount := 1
    disconnectCount := 1
    terminalBuffer := []
    terminalCols := 0
    terminalRows := 0 }

/-! ## C8: reconnect authorization -/

/-- **C8.** `CanReconnect t` returns true iff the token matches, the state
is disconnected, and at most the reconnect window has elapsed since the
last disconnect. -/
theorem canReconnect_iff (s : SessionState) (token : String) (now : Int) :
    s.canReconnect token now = true ↔
      token = s.reconnectToken ∧ s.state = ConnectionState.disconnected ∧
        now - s.lastDisconnectTime ≤ s.reconnectWindow := by
  unfold SessionState.canReconnect SessionState.isExpired
  by_cases htok : s.reconnectToken = token
  · subst htok
    cases hst : s.state
    · simp [hst]
    · simp [hst]
    · simp [hst]
  · simp [htok]
    intro h
    exact absurd h.symm htok

/-! ## C7: rolling buffer cap -/

/-- **C7.** After any sequence of `UpdateTerminalBuffer` calls on a fresh
session state, the buffer holds exactly the most recent `≤ 100 KiB` suffix
of the concatenation of all appended bytes, and its length never exceeds
102400 bytes. -/
theorem terminalBuffer_cap (token : String) (now window : Int)
    (updates : List (List Nat)) :
    (runBufferUpdates (newSessionState token now window) updates).terminalBuffer
        = takeLast maxBufferSize updates.flatten ∧
      (runBufferUpdates (newSessionState token now window) updates).terminalBuffer.length
        ≤ maxBufferSize := by
  have base : (newSessionState token now window).terminalBuffer
      = takeLast maxBufferSize ([] : List Nat) := by
    simp [newSessionState, takeLast]
  have h := runBufferUpdates_terminalBuffer (newSessionState token now window)
    [] updates base
  simp only [List.nil_append] at h
  exact ⟨h, h ▸ takeLast_length_le _ _⟩

/-! ## C4: connection state machine -/

/-- **C4, counterexample.** Expired is not terminal: starting from a fresh
(active) state, `MarkExpired` moves directly from active to expired, and a
subsequent `Connect` returns the state to active — both forbidden by the
claimed state machine. -/
theorem stateMachine_cex :
    (newSessionState "tok" 0 300).state = ConnectionState.active ∧
      ((newSessionState "tok" 0 300).markExpired).state = ConnectionState.expired ∧
      (((newSessionState "tok" 0 300).markExpired).connect 5).state
        = ConnectionState.active := by
  exact ⟨rfl, rfl, rfl⟩

/-- **C4, amended.** The `SessionState` lifecycle methods are unguarded:
`Connect`, `Disconnect` and `MarkExpired` set the state unconditionally to
active, disconnected and expired respectively, from any current state; in
particular every connection state is reachable from every other in one
call, so expired is not terminal and active → expired is possible. -/
theorem stateMachine_unrestricted (s : SessionState) (now : Int) :
    (s.connect now).state = ConnectionState.active ∧
      (s.disconnect now).state = ConnectionState.disconnected ∧
      (s.markExpired).state = ConnectionState.expired ∧
      ∀ target : ConnectionState, ∃ op : SessionOp,
        (applySessionOp s op).state = target := by
  refine ⟨rfl, rfl, rfl, ?_⟩
  intro target
  cases target
  · exact ⟨SessionOp.connectOp now, rfl⟩
  · exact ⟨SessionOp.disconnectOp now, rfl⟩
  · exact ⟨SessionOp.markExpiredOp, rfl⟩

/-! ## C2: reconnect endpoint status codes -/

/-- **C2, counterexample.** With the stored token presented, state still
`disconnected`, window 300 and 301 elapsed since the disconnect (so the
window has expired by elapsed time, `MarkExpired` never called), the
handler answers 401 (unauthorized), not the claimed 410 (gone). -/
theorem handleReconnect_cex :
    handleReconnect reconnectCex (some "tok") 301 = ReconnectResp.unauthorized ∧
      handleReconnect reconnectCex (some "tok") 301 ≠ ReconnectResp.gone := by
  have h1 : handleReconnect reconnectCex (some "tok") 301
      = ReconnectResp.unauthorized := rfl
  refine ⟨h1, ?_⟩
  rw [h1]
  simp

/-- **C2, amended.** `GET /reconnect`: 400 on missing token; 200 when the
token matches, the state is disconnected and the window has not elapsed;
409 whenever the stored state is active (even on token mismatch); 410 only
when the state has been explicitly marked expired; 401 in every other
failing case — including token mismatch and expiry by elapsed time while
the stored state is still disconnected. -/
theorem handleReconnect_statuses (s : SessionState) (t : String) (now : Int) :
    handleReconnect s none now = ReconnectResp.badRequest ∧
      (t = s.reconnectToken → s.state = ConnectionState.disconnected →
        now - s.lastDisconnectTime ≤ s.reconnectWindow →
        handleReconnect s (some t) now
          = ReconnectResp.ok s.terminalCols s.terminalRows s.terminalBuffer) ∧
      (s.state = ConnectionState.active →
        handleReconnect s (some t) now = ReconnectResp.conflict) ∧
      (s.state = ConnectionState.expired →
        handleReconnect s (some t) now = ReconnectResp.gone) ∧
      (s.state = ConnectionState.disconnected →
        (t ≠ s.reconnectToken ∨ now - s.lastDisconnectTime > s.reconnectWindow) →
        handleReconnect s (some t) now = ReconnectResp.unauthorized) := by
  refine ⟨rfl, ?_, ?_, ?_, ?_⟩
  · intro htok hst hwin
    have hcan : s.canReconnect t now = true := by
      unfold SessionState.canReconnect SessionState.isExpired
      simp [hst, htok.symm]
      omega
    simp [handleReconnect, hcan]
  · intro hst
    have hcan : s.canReconnect t now = false := by
      unfold SessionState.canReconnect SessionState.isExpired
      simp [hst]
    simp [handleReconnect, hcan, hst]
  · intro hst
    have hcan : s.canReconnect t now = false := by
      unfold SessionState.canReconnect SessionState.isExpired
      simp [hst]
    simp [handleReconnect, hcan, hst]
  · intro hst hfail
    have hcan : s.canReconnect t now = false := by
      unfold SessionState.canReconnect SessionState.isExpired
      by_cases htok : s.reconnectToken = t
      · rcases hfail with hmis | hlate
        · exact absurd htok.symm hmis
        · simp [htok, hst]
          omega
      · simp [htok]
    simp [handleReconnect, hcan, hst]

/-- **C2, witness** for `handleReconnect_statuses`: at the concrete
time-expired disconnected state, the 401 branch applies. -/
theorem handleReconnect_statuses_witness :
    handleReconnect reconnectCex (some "bad") 301 = ReconnectResp.unauthorized :=
  (handleReconnect_statuses reconnectCex "bad" 301).2.2.2.2 rfl
    (Or.inl (by decide))

/-! ## Rate meter (internal/security/ratelimit.go) -/

/-- One second in nanoseconds (`time.Second`), the rate-meter window. -/
def secondNs : Int := 1000000000

/-- `InputEvent` from ratelimit.go. -/
structure InputEvent where
  timestamp : Int
  length : Nat
deriving DecidableEq, Repr

/-- `RateLimiter` from ratelimit.go (mutex dropped). -/
structure RateLimiter where
  maxCharsPerSecond : Nat
  windowSize : Int
  events : List InputEvent
deriving DecidableEq, Repr

/-- `NewRateLimiter`: 1-second window, empty event list. -/
def newRateLimiter (maxCharsPerSecond : Nat) : RateLimiter :=
  { maxCharsPerSecond := maxCharsPerSecond
    windowSize := secondNs
    events := [] }

/-- `RateLimiter.CheckInput`: append the current event, drop events at or
before `now − windowSize` (`Timestamp.After(cutoff)` is strict), sum the
remaining lengths, and report `(allowed=true, currentRate, violation)`. -/
def RateLimiter.checkInput (r : RateLimiter) (now : Int) (length : Nat) :
    (Bool × Nat × Bool) × RateLimiter :=
  let events := r.events ++ [{ timestamp := now, length := length }]
  let validEvents := events.filter (fun e => decide (now - r.windowSize < e.timestamp))
  let currentRate := (validEvents.map InputEvent.length).sum
  ((true, currentRate, decide (r.maxCharsPerSecond < currentRate)),
   { r with events := validEvents })

/-- Folding a sequence of admissions through the rate meter. -/
def runRate (r : RateLimiter) : List (Int × Nat) → RateLimiter
  | [] => r
  | a :: rest => runRate ((r.checkInput a.1 a.2).2) rest

/-- Admission history as meter events. -/
def evts (l : List (Int × Nat)) : List InputEvent :=
  l.map (fun a => { timestamp := a.1, length := a.2 })

/-- Reference value: the summed lengths of the admissions in `l` whose
timestamp is strictly within the window `w` ending at `now`. -/
def rateAt (w : Int) (l : List (Int × Nat)) (now : Int) : Nat :=
  (((evts l).filter (fun e => decide (now - w < e.timestamp))).map InputEvent.length).sum

theorem checkInput_windowSize (r : RateLimiter) (now : Int) (len : Nat) :
    ((r.checkInput now len).2).windowSize = r.windowSize := rfl

theorem checkInput_max (r : RateLimiter) (now : Int) (len : Nat) :
    ((r.checkInput now len).2).maxCharsPerSecond = r.maxCharsPerSecond := rfl

theorem checkInput_events (r : RateLimiter) (H : List (Int × Nat)) (c now : Int)
    (len : Nat)
    (hev : r.events = (evts H).filter (fun e => decide (c < e.timestamp)))
    (_hw : 0 < r.windowSize) (hc : c ≤ now - r.windowSize) :
    ((r.checkInput now len).2).events
      = (evts (H ++ [(now, len)])).filter
          (fun e => decide (now - r.windowSize < e.timestamp)) := by
  show (r.events ++ [InputEvent.mk now len]).filter
      (fun e : InputEvent => decide (now - r.windowSize < e.timestamp)) = _
  rw [hev]
  simp only [evts, List.map_append, List.filter_append, List.filter_filter]
  congr 1
  · apply List.filter_congr
    intro e _
    by_cases h : now - r.windowSize < e.timestamp
    · have : c < e.timestamp := by omega
      simp [h, this]
    · simp [h]

theorem checkInput_fst_eq (r : RateLimiter) (now : Int) (len : Nat) :
    (r.checkInput now len).1
      = (true, (((r.checkInput now len).2).events.map InputEvent.length).sum,
         decide (r.maxCharsPerSecond
           < (((r.checkInput now len).2).events.map InputEvent.length).sum)) := rfl

theorem runRate_check (pre : List (Int × Nat)) :
    ∀ (r : RateLimiter) (H : List (Int × Nat)) (c now : Int) (len : Nat),
      r.events = (evts H).filter (fun e => decide (c < e.timestamp)) →
      0 < r.windowSize →
      (∀ x ∈ pre, c ≤ x.1 - r.windowSize) →
      c ≤ now - r.windowSize →
      List.Sorted (· ≤ ·) (pre.map Prod.fst ++ [now]) →
      ((runRate r pre).checkInput now len).1
        = (true, rateAt r.windowSize (H ++ pre ++ [(now, len)]) now,
           decide (r.maxCharsPerSecond
             < rateAt r.windowSize (H ++ pre ++ [(now, len)]) now)) := by
  induction pre with
  | nil =>
      intro r H c now len hev hw _ hcnow _
      have hst := checkInput_events r H c now len hev hw hcnow
      simp only [runRate]
      rw [checkInput_fst_eq, hst]
      simp [rateAt]
  | cons a rest ih =>
      intro r H c now len hev hw hc hcnow hsorted
      have hsorted2 : List.Sorted (· ≤ ·)
          (a.1 :: (rest.map Prod.fst ++ [now])) := by
        simpa using hsorted
      rw [List.sorted_cons] at hsorted2
      have hstep := checkInput_events r H c a.1 a.2 hev hw
        (hc a (by simp))
      have hrun : runRate r (a :: rest) = runRate ((r.checkInput a.1 a.2).2) rest := rfl
      rw [hrun]
      have hw2 : 0 < ((r.checkInput a.1 a.2).2).windowSize := by
        rw [checkInput_windowSize]; exact hw
      have happ := ih ((r.checkInput a.1 a.2).2) (H ++ [(a.1, a.2)])
        (a.1 - r.windowSize) now len
        (by rw [hstep])
        hw2
        (by
          intro x hx
          rw [checkInput_windowSize]
          have : a.1 ≤ x.1 := hsorted2.1 x.1 (by
            apply List.mem_append_left
            exact List.mem_map_of_mem Prod.fst hx)
          omega)
        (by
          rw [checkInput_windowSize]
          have : a.1 ≤ now := hsorted2.1 now (by simp)
          omega)
        hsorted2.2
      rw [happ, checkInput_windowSize, checkInput_max]
      have hassoc : H ++ [(a.1, a.2)] ++ rest ++ [(now, len)]
          = H ++ (a :: rest) ++ [(now, len)] := by
        simp [List.append_assoc]
      rw [hassoc]

/-- **C6.** For any admission history with nondecreasing timestamps, the
triple returned by `CheckInput` at the final admission is
`(allowed = true, currentRate, violation)` where `currentRate` is the sum
of the lengths of all admissions (the current one included) whose
timestamp is strictly greater than `now − 1 s`, and
`violation = currentRate > maxCharsPerSecond`. -/
theorem rateMeter_correct (maxRate : Nat) (pre : List (Int × Nat)) (now : Int)
    (len : Nat)
    (hsorted : List.Sorted (· ≤ ·) (pre.map Prod.fst ++ [now])) :
    ((runRate (newRateLimiter maxRate) pre).checkInput now len).1
      = (true, rateAt secondNs (pre ++ [(now, len)]) now,
         decide (maxRate < rateAt secondNs (pre ++ [(now, len)]) now)) := by
  have hwpos : (0 : Int) < secondNs := by norm_num [secondNs]
  cases pre with
  | nil =>
      have happ := runRate_check [] (newRateLimiter maxRate) []
        (now - secondNs) now len
        (by simp [newRateLimiter, evts])
        hwpos
        (by intro x hx; simp at hx)
        (le_refl _)
        hsorted
      simpa [newRateLimiter] using happ
  | cons p rest =>
      have hsorted2 : List.Sorted (· ≤ ·)
          (p.1 :: (rest.map Prod.fst ++ [now])) := by
        simpa using hsorted
      rw [List.sorted_cons] at hsorted2
      have happ := runRate_check (p :: rest) (newRateLimiter maxRate) []
        (p.1 - secondNs) now len
        (by simp [newRateLimiter, evts])
        hwpos
        (by
          intro x hx
          show p.1 - secondNs ≤ x.1 - (newRateLimiter maxRate).windowSize
          have hx1 : p.1 ≤ x.1 := by
            rcases List.mem_cons.mp hx with h | h
            · rw [h]
            · exact hsorted2.1 x.1
                (List.mem_append_left _ (List.mem_map_of_mem Prod.fst h))
          show p.1 - secondNs ≤ x.1 - secondNs
          omega)
        (by
          have := hsorted2.1 now (by simp)
          show p.1 - secondNs ≤ now - secondNs
          omega)
        hsorted
      simpa [newRateLimiter] using happ

/-- **C6, witness**: three admissions at 0 s, 0.5 s and 1.2 s with lengths
10, 20, 5: the events at 0.5 s and 1.2 s lie within the final window, so
the final admission reports rate 25 with no violation at limit 30. -/
theorem rateMeter_correct_witness :
    ((runRate (newRateLimiter 30) [(0, 10), (500000000, 20)]).checkInput
        1200000000 5).1 = (true, 25, false) := by
  have h := rateMeter_correct 30 [(0, 10), (500000000, 20)] 1200000000 5
    (by decide)
  exact h.trans (by decide)

/-! ## Burst meter (internal/security/ratelimit.go) -/

/-- 100 ms in nanoseconds, the burst window used by the detector. -/
def burstWindowNs : Int := 100 * 1000000

/-- `BurstDetector` from ratelimit.go.  `lastInput = none` models the zero
`time.Time` (`IsZero`). -/
structure BurstDetector where
  maxCharsInBurst : Nat
  burstWindow : Int
  lastInput : Option Int
  burstChars : Nat
deriving DecidableEq, Repr

/-- `NewBurstDetector`. -/
def newBurstDetector (maxCharsInBurst : Nat) (burstWindow : Int) : BurstDetector :=
  { maxCharsInBurst := maxCharsInBurst
    burstWindow := burstWindow
    lastInput := none
    burstChars := 0 }

/-- `BurstDetector.CheckBurst`: on a reset admission (`lastInput` zero or
gap strictly greater than the window) the counter restarts at `length` and
the call returns `(false, length)`; otherwise the counter accumulates and
the call returns `(burstChars > maxCharsInBurst, burstChars)`. -/
def BurstDetector.checkBurst (b : BurstDetector) (now : Int) (length : Nat) :
    (Bool × Nat) × BurstDetector :=
  match b.lastInput with
  | none =>
      ((false, length), { b with burstChars := length, lastInput := some now })
  | some last =>
      if now - last > b.burstWindow then
        ((false, length), { b with burstChars := length, lastInput := some now })
      else
        let bc := b.burstChars + length
        ((decide (b.maxCharsInBurst < bc), bc),
         { b with burstChars := bc, lastInput := some now })

/-- The burst admission exactly as §4.1 of the spec words it: update
`burstChars` (reset or accumulate), then report
`(isBurst = burstChars > maxCharsInBurst, burstChars)` — the report
formula applying to both branches. -/
def specCheckBurst (b : BurstDetector) (now : Int) (length : Nat) :
    (Bool × Nat) × BurstDetector :=
  let isReset : Bool :=
    match b.lastInput with
    | none => true
    | some last => decide (now - last > b.burstWindow)
  let bc := if isReset then length else b.burstChars + length
  ((decide (b.maxCharsInBurst < bc), bc),
   { b with burstChars := bc, lastInput := some now })

/-- **C5, counterexample.** A fresh burst detector (30 chars / 100 ms) fed
a single 64-char admission: the code reports `(false, 64)` although
`burstChars = 64 > 30`, so the reported `isBurst` differs from
`burstChars > maxCharsInBurst` on an admission that starts a new burst
(the spec-reference admission reports `(true, 64)` there). -/
theorem checkBurst_cex :
    ((newBurstDetector 30 burstWindowNs).checkBurst 0 64).1 = (false, 64) ∧
      (specCheckBurst (newBurstDetector 30 burstWindowNs) 0 64).1 = (true, 64) ∧
      ((newBurstDetector 30 burstWindowNs).checkBurst 0 64).1.1
        ≠ decide (30 < ((newBurstDetector 30 burstWindowNs).checkBurst 0 64).1.2) := by
  exact ⟨rfl, rfl, by decide⟩

/-- **C5, amended.** `CheckBurst` updates the counter exactly as the spec
says (reset to `length` on a gap strictly greater than the window or unset
`lastInput`, else accumulate) and reports that counter, but the reported
`isBurst` is unconditionally `false` on a reset admission — even when
`length > maxCharsInBurst`; only on an accumulating admission does it
equal `burstChars > maxCharsInBurst`.  The state and the reported counter
agree with the spec-reference admission on every input. -/
theorem checkBurst_amended (b : BurstDetector) (now : Int) (length : Nat) :
    (b.checkBurst now length).2 = (specCheckBurst b now length).2 ∧
      (b.checkBurst now length).1.2 = (specCheckBurst b now length).1.2 ∧
      ((b.lastInput = none ∨
          ∃ last, b.lastInput = some last ∧ now - last > b.burstWindow) →
        (b.checkBurst now length).1 = (false, length)) ∧
      (∀ last, b.lastInput = some last → now - last ≤ b.burstWindow →
        (b.checkBurst now length).1
          = (decide (b.maxCharsInBurst < b.burstChars + length),
             b.burstChars + length)) := by
  rcases hlast : b.lastInput with _ | last
  · refine ⟨?_, ?_, ?_, ?_⟩
    · simp [BurstDetector.checkBurst, specCheckBurst, hlast]
    · simp [BurstDetector.checkBurst, specCheckBurst, hlast]
    · intro _
      simp [BurstDetector.checkBurst, hlast]
    · intro last2 heq _
      simp at heq
  · by_cases hgap : now - last > b.burstWindow
    · refine ⟨?_, ?_, ?_, ?_⟩
      · simp [BurstDetector.checkBurst, specCheckBurst, hlast, hgap]
      · simp [BurstDetector.checkBurst, specCheckBurst, hlast, hgap]
      · intro _
        simp [BurstDetector.checkBurst, hlast, hgap]
      · intro last2 heq hle
        injection heq with heq
        omega
    · refine ⟨?_, ?_, ?_, ?_⟩
      · simp [BurstDetector.checkBurst, specCheckBurst, hlast, hgap]
      · simp [BurstDetector.checkBurst, specCheckBurst, hlast, hgap]
      · intro h
        rcases h with h | ⟨last2, heq, hgt⟩
        · simp at h
        · injection heq with heq
          omega
      · intro last2 heq _
        simp [BurstDetector.checkBurst, hlast, hgap]

/-- **C5, witness** for `checkBurst_amended`: an accumulating admission
(20 chars at 25 already in the burst, gap 50 ms ≤ 100 ms) reports
`(true, 45)` at threshold 30; a reset admission (gap 200 ms) reports
`(false, 64)`. -/
theorem checkBurst_amended_witness :
    (BurstDetector.checkBurst
        { maxCharsInBurst := 30, burstWindow := burstWindowNs,
          lastInput := some 0, burstChars := 25 } 50000000 20).1 = (true, 45) ∧
      (BurstDetector.checkBurst
        { maxCharsInBurst := 30, burstWindow := burstWindowNs,
          lastInput := some 0, burstChars := 25 } 200000000 64).1 = (false, 64) := by
  constructor
  · have h := (checkBurst_amended
      { maxCharsInBurst := 30, burstWindow := burstWindowNs,
        lastInput := some 0, burstChars := 25 } 50000000 20).2.2.2 0 rfl (by decide)
    exact h.trans (by decide)
  · exact (checkBurst_amended
      { maxCharsInBurst := 30, burstWindow := burstWindowNs,
        lastInput := some 0, burstChars := 25 } 200000000 64).2.2.1
      (Or.inr ⟨0, rfl, by decide⟩)

/-! ## Anti-cheat detector (internal/anticheat) -/

/-- Severity levels from logger.go. -/
inductive Severity where
  | info
  | warning
  | critical
deriving DecidableEq, Repr

/-- An anti-cheat `Event` (logger.go); the free-form data map is reduced
to the fields the claims mention. -/
structure ACEvent where
  timestamp : Int
  severity : Severity
  type : String
  chars : Nat
deriving DecidableEq, Repr

/-- `Logger.LogRapidInput`: warning event of type `rapid_input`. -/
def mkRapidInput (now : Int) (charsPerSecond : Nat) : ACEvent :=
  { timestamp := now, severity := Severity.warning, type := "rapid_input",
    chars := charsPerSecond }

/-- `Logger.LogPasteAttempt`: critical event of type `paste_attempt`. -/
def mkPasteAttempt (now : Int) (length : Nat) : ACEvent :=
  { timestamp := now, severity := Severity.critical, type := "paste_attempt",
    chars := length }

/-- `Logger.LogTypingAnomaly`: warning event of type `typing_anomaly`. -/
def mkTypingAnomaly (now : Int) (chars : Nat) : ACEvent :=
  { timestamp := now, severity := Severity.warning, type := "typing_anomaly",
    chars := chars }

/-- `Detector` from detector.go (mutex dropped; the logger is its event
list). -/
structure Detector where
  rateLimiter : RateLimiter
  burstDetector : BurstDetector
  events : List ACEvent
  keystrokeCount : Nat
  lastKeystroke : Int
deriving DecidableEq, Repr

/-- `NewDetector`: rate limiter at the configured threshold and a
30-char / 100 ms burst detector. -/
def newDetector (maxCharsPerSecond : Nat) (now : Int) : Detector :=
  { rateLimiter := newRateLimiter maxCharsPerSecond
    burstDetector := newBurstDetector 30 burstWindowNs
    events := []
    keystrokeCount := 0
    lastKeystroke := now }

/-- `Detector.CheckInput`: rate admission (→ `rapid_input` on violation),
burst admission (→ `paste_attempt` on burst), multi-char timing check
(→ `typing_anomaly` when `len > 1` and the gap since the previous
keystroke is under 50 ms).  Returns `(allowed, violations)` where
`allowed` mirrors the rate meter's always-true flag. -/
def Detector.checkInput (d : Detector) (now : Int) (length : Nat) :
    (Bool × List ACEvent) × Detector :=
  let timeSinceLastKey := now - d.lastKeystroke
  let rateRes := d.rateLimiter.checkInput now length
  let v1 : List ACEvent :=
    if rateRes.1.2.2 then [mkRapidInput now rateRes.1.2.1] else []
  let burstRes := d.burstDetector.checkBurst now length
  let v2 : List ACEvent :=
    if burstRes.1.1 then [mkPasteAttempt now burstRes.1.2] else []
  let v3 : List ACEvent :=
    if 1 < length ∧ timeSinceLastKey < 50 * 1000000 then
      [mkTypingAnomaly now length]
    else []
  ((rateRes.1.1, v1 ++ v2 ++ v3),
   { rateLimiter := rateRes.2
     burstDetector := burstRes.2
     events := d.events ++ v1 ++ v2 ++ v3
     keystrokeCount := d.keystrokeCount + length
     lastKeystroke := now })

/-! ## WS bridge inbound path (WSHandler.Handle, inbound goroutine) -/

/-- Observable effects of the inbound goroutine for one plain text frame:
chunks forwarded to the PTY, `keystrokes.log` entries, `events.log`
entries (event-type tag and payload), `websocket.log` entries. -/
structure BridgeState where
  detector : Detector
  ptyWrites : List (List Nat)
  keystrokeLog : List (List Nat)
  eventsLog : List (String × ACEvent)
  wsLog : List (List Nat)
deriving DecidableEq, Repr

/-- A fresh per-connection bridge over a fresh detector. -/
def newBridgeState (maxCharsPerSecond : Nat) (now : Int) : BridgeState :=
  { detector := newDetector maxCharsPerSecond now
    ptyWrites := []
    keystrokeLog := []
    eventsLog := []
    wsLog := [] }

/-- The inbound handler's processing of a text frame that did not parse as
a JSON control message: record to `websocket.log`, run
`Detector.CheckInput`; if not allowed, drop the chunk; otherwise record
each violation as an `anticheat_violation` event, record the chunk to
`keystrokes.log`, and write it to the PTY. -/
def processPlainInput (st : BridgeState) (now : Int) (data : List Nat) :
    BridgeState :=
  let st1 := { st with wsLog := st.wsLog ++ [data] }
  let res := st1.detector.checkInput now data.length
  if res.1.1 = false then
    { st1 with detector := res.2 }
  else
    { st1 with
      detector := res.2
      eventsLog := st1.eventsLog ++ res.1.2.map (fun v => ("anticheat_violation", v))
      keystrokeLog := st1.keystrokeLog ++ [data]
      ptyWrites := st1.ptyWrites ++ [data] }

theorem detector_always_allows (d : Detector) (now : Int) (length : Nat) :
    (d.checkInput now length).1.1 = true := rfl

theorem checkInput_violation_types (d : Detector) (now : Int) (length : Nat) :
    ∀ v ∈ (d.checkInput now length).1.2,
      v.type = "rapid_input" ∨ v.type = "paste_attempt" ∨
        v.type = "typing_anomaly" := by
  intro v hv
  simp only [Detector.checkInput] at hv
  split_ifs at hv <;>
    simp_all [mkRapidInput, mkPasteAttempt, mkTypingAnomaly] <;>
    ((rcases hv with rfl | rfl | rfl) <;> simp)

theorem checkInput_detector_events (d : Detector) (now : Int) (length : Nat) :
    ((d.checkInput now length).2).events
      = d.events ++ (d.checkInput now length).1.2 := by
  simp [Detector.checkInput, List.append_assoc]

/-- The 64-byte chunk of scenario 2 of the spec (64 copies of `a`). -/
def chunk64 : List Nat := List.replicate 64 97

/-- **C1, counterexample.** A fresh connection receives a single 64-byte
plain text chunk: the chunk IS written to the PTY (the detector's
`allowed` is always true and the server has no large-chunk block), and no
`paste_blocked` event is produced anywhere — the only server event for
this input is a `rapid_input` warning. -/
theorem pasteBlock_cex :
    (processPlainInput (newBridgeState 30 0) 1000000000 chunk64).ptyWrites
        = [chunk64] ∧
      ((processPlainInput (newBridgeState 30 0) 1000000000 chunk64).eventsLog.filter
        (fun p => decide (p.2.type = "paste_blocked"))).length = 0 ∧
      ((processPlainInput (newBridgeState 30 0) 1000000000
          chunk64).detector.events.filter
        (fun e => decide (e.type = "paste_blocked"))).length = 0 ∧
      chunk64.length > 20 := by
  refine ⟨rfl, ?_, ?_, by decide⟩ <;> decide

/-- **C1, amended.** The server-side bridge never blocks a plain text
chunk: every inbound plain chunk, of any length (> 20 included), is
recorded to `keystrokes.log` and written to the PTY, and every event the
server produces for it has type `rapid_input`, `paste_attempt` or
`typing_anomaly` — never `paste_blocked` (the > 20 hard block exists only
in the browser client, outside the engine). -/
theorem bridge_forwards_all (st : BridgeState) (now : Int) (data : List Nat) :
    (processPlainInput st now data).ptyWrites = st.ptyWrites ++ [data] ∧
      (processPlainInput st now data).keystrokeLog
        = st.keystrokeLog ++ [data] ∧
      (∀ p ∈ (processPlainInput st now data).eventsLog,
        p ∈ st.eventsLog ∨
          (p.1 = "anticheat_violation" ∧
            (p.2.type = "rapid_input" ∨ p.2.type = "paste_attempt" ∨
              p.2.type = "typing_anomaly"))) ∧
      (∀ e ∈ (processPlainInput st now data).detector.events,
        e ∈ st.detector.events ∨
          e.type = "rapid_input" ∨ e.type = "paste_attempt" ∨
            e.type = "typing_anomaly") := by
  have hall := detector_always_allows st.detector now data.length
  refine ⟨?_, ?_, ?_, ?_⟩
  · simp [processPlainInput, hall]
  · simp [processPlainInput, hall]
  · intro p hp
    simp only [processPlainInput, hall, Bool.true_eq_false, if_neg,
      not_false_iff] at hp
    simp only [List.mem_append] at hp
    rcases hp with hp | hp
    · exact Or.inl hp
    · right
      obtain ⟨v, hv, rfl⟩ := List.mem_map.mp hp
      exact ⟨rfl, checkInput_violation_types st.detector now data.length v hv⟩
  · intro e he
    simp only [processPlainInput, hall, Bool.true_eq_false, if_neg,
      not_false_iff] at he
    rw [checkInput_detector_events] at he
    rcases List.mem_append.mp he with he | he
    · exact Or.inl he
    · exact Or.inr (checkInput_violation_types st.detector now data.length e he)

/-- **C1, witness** for `bridge_forwards_all`: the 64-byte chunk of the
counterexample is forwarded, and the one event it produces (a
`rapid_input` warning at rate 64) is of an advisory type. -/
theorem bridge_forwards_all_witness :
    (processPlainInput (newBridgeState 30 0) 1000000000 chunk64).ptyWrites
        = [chunk64] ∧
      (("anticheat_violation", mkRapidInput 1000000000 64)
          ∈ (newBridgeState 30 0).eventsLog ∨
        ((("anticheat_violation", mkRapidInput 1000000000 64) :
            String × ACEvent).1 = "anticheat_violation" ∧
          ((mkRapidInput 1000000000 64).type = "rapid_input" ∨
            (mkRapidInput 1000000000 64).type = "paste_attempt" ∨
            (mkRapidInput 1000000000 64).type = "typing_anomaly"))) :=
  ⟨(bridge_forwards_all (newBridgeState 30 0) 1000000000 chunk64).1,
   (bridge_forwards_all (newBridgeState 30 0) 1000000000 chunk64).2.2.1
     ("anticheat_violation", mkRapidInput 1000000000 64) (by decide)⟩

/-! ## Recorder (internal/terminal/recorder.go) -/

/-- One buffered write issued by `RecordOutput`, in issue order: a
`timing.log` line `<elapsed> <byteCount>` or a raw `terminal.log` data
chunk. -/
inductive RecWrite where
  | timing (elapsed : Int) (byteCount : Nat)
  | data (bytes : List Nat)
deriving DecidableEq, Repr

/-- The recorder state relevant to the terminal/timing pair: the `closed`
flag, `lastOutputTime`, the parsed `timing.log` lines, the raw
`terminal.log` bytes, and the ordered log of writes (`writeOrder`).
The elapsed column is kept in nanoseconds (the source formats it in
seconds with microsecond precision). -/
structure RecorderState where
  closed : Bool
  startTime : Int
  lastOutputTime : Int
  timingLines : List (Int × Nat)
  terminalLog : List Nat
  writeOrder : List RecWrite
  filesReadOnly : Bool
deriving DecidableEq, Repr

/-- `NewRecorder`: open recorder, `lastOutputTime = startTime`, empty
logs. -/
def newRecorderState (now : Int) : RecorderState :=
  { closed := false
    startTime := now
    lastOutputTime := now
    timingLines := []
    terminalLog := []
    writeOrder := []
    filesReadOnly := false }

/-- `Recorder.RecordOutput`: error when closed; otherwise write the
`timing.log` line `<elapsed> <len(data)>` first, then append `data` to
`terminal.log`, and stamp `lastOutputTime := now`. -/
def RecorderState.recordOutput (r : RecorderState) (now : Int) (data : List Nat) :
    Except String RecorderState :=
  if r.closed then
    Except.error "recorder is closed"
  else
    let elapsed := now - r.lastOutputTime
    Except.ok
      { r with
        lastOutputTime := now
        timingLines := r.timingLines ++ [(elapsed, data.length)]
        terminalLog := r.terminalLog ++ data
        writeOrder := r.writeOrder
          ++ [RecWrite.timing elapsed data.length, RecWrite.data data] }

/-- `Recorder.Close`: exactly-once — a second call returns nil without
touching anything; the first call marks closed and demotes the recording
files to read-only. -/
def RecorderState.close (r : RecorderState) : Option String × RecorderState :=
  if r.closed then
    (none, r)
  else
    (none, { r with closed := true, filesReadOnly := true })

/-- Folding a sequence of `RecordOutput` calls; a failing call leaves the
state unchanged. -/
def runRecordOutput (r : RecorderState) : List (Int × List Nat) → RecorderState
  | [] => r
  | a :: rest =>
      match r.recordOutput a.1 a.2 with
      | Except.ok r2 => runRecordOutput r2 rest
      | Except.error _ => runRecordOutput r rest

/-- Checks that a write log is a sequence of timing-line/data-chunk pairs
in which every timing line precedes its data chunk and announces exactly
its byte count. -/
def timingPaired : List RecWrite → Bool
  | [] => true
  | RecWrite.timing _ n :: RecWrite.data d :: rest =>
      decide (d.length = n) && timingPaired rest
  | _ => false

theorem timingPaired_append_pair :
    ∀ (xs : List RecWrite) (e : Int) (d : List Nat),
      timingPaired xs = true →
      timingPaired (xs ++ [RecWrite.timing e d.length, RecWrite.data d]) = true
  | [], _, _, _ => by simp [timingPaired]
  | RecWrite.timing _ _ :: RecWrite.data _ :: rest, e, d, h => by
      simp only [timingPaired, Bool.and_eq_true] at h
      simp only [List.cons_append, timingPaired, Bool.and_eq_true]
      exact ⟨h.1, timingPaired_append_pair rest e d h.2⟩
  | RecWrite.timing e2 n2 :: RecWrite.timing e3 n3 :: rest, _, _, h => by
      rw [show timingPaired
        (RecWrite.timing e2 n2 :: RecWrite.timing e3 n3 :: rest) = false from rfl] at h
      exact Bool.noConfusion h
  | [RecWrite.timing e2 n2], _, _, h => by
      rw [show timingPaired [RecWrite.timing e2 n2] = false from rfl] at h
      exact Bool.noConfusion h
  | RecWrite.data d2 :: rest, _, _, h => by
      rw [show timingPaired (RecWrite.data d2 :: rest) = false from rfl] at h
      exact Bool.noConfusion h

theorem runRecordOutput_props (l : List (Int × List Nat)) :
    ∀ r : RecorderState, r.closed = false →
      (runRecordOutput r l).closed = false ∧
      (runRecordOutput r l).timingLines.length
        = r.timingLines.length + l.length ∧
      (runRecordOutput r l).terminalLog
        = r.terminalLog ++ (l.map Prod.snd).flatten ∧
      ((runRecordOutput r l).timingLines.map Prod.snd).sum
        = (r.timingLines.map Prod.snd).sum + (l.map (fun a => a.2.length)).sum ∧
      (timingPaired r.writeOrder = true →
        timingPaired (runRecordOutput r l).writeOrder = true) := by
  induction l with
  | nil =>
      intro r hopen
      exact ⟨hopen, by simp [runRecordOutput], by simp [runRecordOutput],
        by simp [runRecordOutput], fun h => by simpa [runRecordOutput] using h⟩
  | cons a rest ih =>
      intro r hopen
      have hstep : r.recordOutput a.1 a.2 = Except.ok
          { r with
            lastOutputTime := a.1
            timingLines := r.timingLines ++ [(a.1 - r.lastOutputTime, a.2.length)]
            terminalLog := r.terminalLog ++ a.2
            writeOrder := r.writeOrder
              ++ [RecWrite.timing (a.1 - r.lastOutputTime) a.2.length,
                  RecWrite.data a.2] } := by
        simp [RecorderState.recordOutput, hopen]
      have hrun : runRecordOutput r (a :: rest)
          = runRecordOutput
            { r with
              lastOutputTime := a.1
              timingLines := r.timingLines ++ [(a.1 - r.lastOutputTime, a.2.length)]
              terminalLog := r.terminalLog ++ a.2
              writeOrder := r.writeOrder
                ++ [RecWrite.timing (a.1 - r.lastOutputTime) a.2.length,
                    RecWrite.data a.2] } rest := by
        simp [runRecordOutput, hstep]
      obtain ⟨ih1, ih2, ih3, ih4, ih5⟩ := ih
        { r with
          lastOutputTime := a.1
          timingLines := r.timingLines ++ [(a.1 - r.lastOutputTime, a.2.length)]
          terminalLog := r.terminalLog ++ a.2
          writeOrder := r.writeOrder
            ++ [RecWrite.timing (a.1 - r.lastOutputTime) a.2.length,
                RecWrite.data a.2] } hopen
      refine ⟨hrun ▸ ih1, ?_, ?_, ?_, ?_⟩
      · rw [hrun, ih2]
        simp
        omega
      · rw [hrun, ih3]
        simp
      · rw [hrun, ih4]
        simp
        omega
      · intro hpair
        rw [hrun]
        exact ih5 (timingPaired_append_pair r.writeOrder _ a.2 hpair)

/-! ## C9: terminal/timing pairing -/

/-- **C9.** After any sequence of successful `RecordOutput` calls on a
fresh recorder: `timing.log` has one line per batch, the sum of its
byte-count column equals the byte length of `terminal.log` (which is the
concatenation of the batches), and the write log is a sequence of
timing-then-data pairs — each timing line is written before its data
bytes and announces exactly their count. -/
theorem recordOutput_pairing (start : Int) (l : List (Int × List Nat)) :
    (runRecordOutput (newRecorderState start) l).timingLines.length = l.length ∧
      ((runRecordOutput (newRecorderState start) l).timingLines.map Prod.snd).sum
        = (runRecordOutput (newRecorderState start) l).terminalLog.length ∧
      (runRecordOutput (newRecorderState start) l).terminalLog
        = (l.map Prod.snd).flatten ∧
      timingPaired (runRecordOutput (newRecorderState start) l).writeOrder
        = true := by
  obtain ⟨_, h2, h3, h4, h5⟩ :=
    runRecordOutput_props l (newRecorderState start) rfl
  refine ⟨?_, ?_, ?_, h5 rfl⟩
  · simpa [newRecorderState] using h2
  · rw [h3, h4]
    simp only [newRecorderState, List.length_flatten, List.map_map,
      List.nil_append, List.map_nil, List.sum_nil, Nat.zero_add]
    rfl
  · simpa [newRecorderState] using h3

/-! ## PTY broker teardown (internal/terminal/pty.go) -/

/-- The `PTY` teardown state: the `closed` flag, whether the PTY fd has
been closed, and whether SIGKILL has been sent to the child. -/
structure PTYState where
  closed : Bool
  fileClosed : Bool
  killSignaled : Bool
deriving DecidableEq, Repr

/-- A freshly started PTY. -/
def newPTYState : PTYState :=
  { closed := false, fileClosed := false, killSignaled := false }

/-- `PTY.Close`: guarded by the `closed` flag — the second and later calls
return nil without any effect; the first marks closed, closes the fd and
kills the child (the reap is detached and not modelled).  The returned
error is nil on every path. -/
def PTYState.close (p : PTYState) : Option String × PTYState :=
  if p.closed then
    (none, p)
  else
    (none, { closed := true, fileClosed := true, killSignaled := true })

/-! ## Session manager (session manager source file) -/

/-- The `Session` record (metadata.json payload).  `endTime`/`duration`
are `none` while never stamped (Go's zero `time.Time`); the hash map is a
list of `(file, digest)` pairs. -/
structure Session where
  id : String
  candidateName : String
  startTime : Int
  endTime : Option Int
  duration : Option Int
  status : String
  fileHashes : List (String × String)
deriving DecidableEq, Repr

/-- The `Manager`: its session, the recording files present on disk
(name → digest, hashing abstracted to a lookup), the ordered list of
snapshots written to `metadata.json`, and whether the protected files
have been demoted to read-only. -/
structure Manager where
  session : Session
  files : List (String × String)
  metadataWrites : List Session
  protectedReadOnly : Bool
deriving DecidableEq, Repr

/-- `Manager.SaveMetadata`: stamps `EndTime := now` and
`Duration := now − StartTime` unconditionally, then writes the session
snapshot to `metadata.json`. -/
def Manager.saveMetadata (m : Manager) (now : Int) : Manager :=
  let sess := { m.session with
    endTime := some now
    duration := some (now - m.session.startTime) }
  { m with session := sess, metadataWrites := m.metadataWrites ++ [sess] }

/-- The six files `calculateFileHashes` attempts to hash. -/
def recordedFiles : List String :=
  ["keystrokes.log", "terminal.log", "timing.log", "websocket.log",
   "events.log", "commands.log"]

/-- `Manager.calculateFileHashes`: hash every one of the six files that is
present, skipping missing ones. -/
def Manager.calculateFileHashes (m : Manager) : Manager :=
  { m with session := { m.session with
      fileHashes := recordedFiles.filterMap
        (fun f => (m.files.lookup f).map (fun h => (f, h))) } }

/-- `Manager.Complete`: unguarded — sets status, re-stamps
endTime/duration, recomputes hashes, saves metadata and re-protects the
files, on every invocation. -/
def Manager.complete (m : Manager) (now : Int) : Manager :=
  let m1 := { m with session := { m.session with
    status := "completed"
    endTime := some now
    duration := some (now - m.session.startTime) } }
  let m2 := m1.calculateFileHashes
  let m3 := m2.saveMetadata now
  { m3 with protectedReadOnly := true }

/-- `NewManager`: a fresh active session followed by the initial
`SaveMetadata` (no recording files exist yet). -/
def newManager (sessionId candidateName : String) (now : Int) : Manager :=
  Manager.saveMetadata
    { session := { id := sessionId
                   candidateName := candidateName
                   startTime := now
                   endTime := none
                   duration := none
                   status := "active"
                   fileHashes := [] }
      files := []
      metadataWrites := []
      protectedReadOnly := false } now

/-- The concrete manager of the teardown counterexample. -/
def managerCex : Manager := newManager "abc12345" "alice" 0

/-! ## C3: idempotent teardown -/

/-- **C3, counterexample.** `Manager.Complete` invoked a second time (at a
later instant) is not a no-op: it re-stamps `EndTime` from 10 to 20 and
writes `metadata.json` again, so the second invocation does change state
and file contents. -/
theorem complete_not_idempotent_cex :
    (managerCex.complete 10).session.endTime = some 10 ∧
      ((managerCex.complete 10).complete 20).session.endTime = some 20 ∧
      ((managerCex.complete 10).complete 20).metadataWrites.length
        = (managerCex.complete 10).metadataWrites.length + 1 ∧
      (managerCex.complete 10).complete 20 ≠ managerCex.complete 10 := by
  refine ⟨rfl, rfl, rfl, ?_⟩
  decide

/-- **C3, amended.** `PTY.Close` and `Recorder.Close` are idempotent: any
call after the first returns nil and leaves the state unchanged.
`Manager.Complete` is not: every invocation (not only the first)
re-stamps `EndTime` to the current instant and appends a fresh
`metadata.json` write. -/
theorem teardown_idempotence (p : PTYState) (r : RecorderState) (m : Manager)
    (now : Int) :
    PTYState.close (PTYState.close p).2 = (none, (PTYState.close p).2) ∧
      RecorderState.close (RecorderState.close r).2
        = (none, (RecorderState.close r).2) ∧
      (m.complete now).session.endTime = some now ∧
      (m.complete now).metadataWrites.length = m.metadataWrites.length + 1 := by
  refine ⟨?_, ?_, rfl, ?_⟩
  · by_cases h : p.closed <;> simp [PTYState.close, h]
  · by_cases h : r.closed <;> simp [RecorderState.close, h]
  · simp [Manager.complete, Manager.saveMetadata, Manager.calculateFileHashes]

/-! ## C10: SaveMetadata stamps end time on every write -/

/-- **C10.** Every `SaveMetadata` call — the initial one inside
`NewManager` included, while the status is still `active` — overwrites
`EndTime` with the current instant and `Duration` with `now − StartTime`
before writing, so every persisted snapshot of an active session carries a
populated `end_time` and `duration_seconds`. -/
theorem saveMetadata_stamps (m : Manager) (sessionId cand : String) (now : Int) :
    (m.saveMetadata now).session.endTime = some now ∧
      (m.saveMetadata now).session.duration = some (now - m.session.startTime) ∧
      (m.saveMetadata now).metadataWrites
        = m.metadataWrites ++ [(m.saveMetadata now).session] ∧
      (newManager sessionId cand now).metadataWrites
        = [(newManager sessionId cand now).session] ∧
      (newManager sessionId cand now).session.status = "active" ∧
      (newManager sessionId cand now).session.endTime = some now ∧
      (newManager sessionId cand now).session.duration = some 0 := by
  refine ⟨rfl, rfl, rfl, rfl, rfl, rfl, ?_⟩
  simp [newManager, Manager.saveMetadata]

end Echobox
